import Mathlib

/-!
Shallow embedding of the memory-match game engine in `src/game.py`
(class `Game`), for verification of its natural-language specification.

The engine's side effects (LED updates, audio playback, console logging,
fixed sleeps) are modelled as an explicit trace of `Effect` values.
The mutable state owned by the consumer thread (`self.pairs`,
`self.selections`, and the local counter `matched_pairs` of
`_background_logic_checker`) is modelled by `GameState`.  The consumer
loop of `_background_logic_checker` is modelled by `processEvent`
(the body handling one dequeued button number) and `runEvents`
(processing a list of dequeued button numbers in FIFO order, while the
`play_game` liveness flag stays true); the loop terminates when the
end-of-game branch is reached.
-/

/-- One observable side effect issued by the engine: a console log
(`print`), an LED colour assignment
(`button_pad.set_button_led_color(get_button(slot), color)`), a sound
(`speaker.play_preloaded_wav(name, wait_until_done=True)`), a fixed sleep
(`time.sleep`, in milliseconds), or the spawning of the background
consumer thread (`threading.Thread(...).start()`). -/
inductive Effect where
  | log (msg : String)
  | setLED (slot : Nat) (color : String)
  | playSound (name : String)
  | sleep (ms : Nat)
  | spawnConsumer
  deriving Repr, DecidableEq

/-- A Python exception, as far as the engine can raise one. -/
inductive PyError where
  | typeError (msg : String)
  deriving Repr, DecidableEq

/-- Calling a Python `str` value as a function raises
`TypeError: str object is not callable`. -/
def callStr (_s : String) : Except PyError Unit :=
  Except.error (PyError.typeError "str object is not callable")

/-- `self.colors` from `Game.__init__`: the 8-element colour palette,
index-aligned to the pair index. -/
def colors : List String :=
  ["red", "yellow", "orange", "green", "blue", "purple", "white", "brown"]

/-- `self.sounds` from `Game.__init__`: the 8-element sound palette,
index-aligned to the pair index. -/
def sounds : List String :=
  ["thunder2", "fart_z", "baby_x", "slide_whistle_x",
   "arrow2", "phone_pay", "bloop_x", "car_horn_x"]

/-- The state owned by the consumer: `self.pairs` (list of 2-element
lists of button numbers), `self.selections` (the selection buffer), and
the local `matched_pairs` counter of `_background_logic_checker`. -/
structure GameState where
  pairs : List (List Nat)
  selections : List Nat
  matchedPairs : Nat
  deriving Repr, DecidableEq

/-- `Game._get_pair_index`, inner loop: scan `pairs[i]` for
`button_number` starting at index `i`, returning `-1` if not found. -/
def getPairIndexAux (pairs : List (List Nat)) (button : Nat) (i : Nat) : Int :=
  match pairs with
  | [] => -1
  | p :: ps => if button ∈ p then (i : Int) else getPairIndexAux ps button (i + 1)

/-- `Game._get_pair_index(button_number)`: index of the first pair
containing the button number, or `-1` when the button is in no pair. -/
def getPairIndex (pairs : List (List Nat)) (button : Nat) : Int :=
  getPairIndexAux pairs button 0

/-- `Game.correct_sound`: a property whose getter plays the
`"correct_answer"` clip and returns the string `"correct_answer"`.
Modelled as the pair (effects of the getter, value of the attribute). -/
def correct_sound : List Effect × String :=
  ([Effect.playSound "correct_answer"], "correct_answer")

/-- `Game.incorrect_sound`: a property whose getter plays the
`"incorrect"` clip and returns the string `"incorrect"`. -/
def incorrect_sound : List Effect × String :=
  ([Effect.playSound "incorrect"], "incorrect")

/-- `Game.end_of_game_sound`: a property whose getter plays the
`"end_of_game"` clip and returns the string `"end_of_game"`. -/
def end_of_game_sound : List Effect × String :=
  ([Effect.playSound "end_of_game"], "end_of_game")

/-- The local `colors` list of `Game.end`: the sequence-defined sweep
palette, independent of the pairing's colour assignment. -/
def endColors : List String :=
  ["red", "orange", "yellow", "green", "blue", "purple", "red", "orange",
   "yellow", "green", "blue", "purple", "red", "orange", "yellow", "green"]

/-- The lighting sweep of `Game.end`: `for i in range(1, 17)`, set button
`i`'s LED to `colors[i-1]`, then `time.sleep(0.1)`. -/
def endSweepTrace : List Effect :=
  ((List.range 16).map
    (fun k => [Effect.setLED (k + 1) (endColors.getD k ""), Effect.sleep 100])).flatten

/-- `Game.end()`: runs the 16-slot lighting sweep, then evaluates
`self.end_of_game_sound()`.  The attribute access runs the property
getter (which plays the end-of-game clip once and returns the string
`"end_of_game"`); the subsequent call of that string raises `TypeError`,
so `end()` never returns normally.  Modelled as (trace, outcome). -/
def endGame : List Effect × Except PyError Unit :=
  (endSweepTrace ++ end_of_game_sound.1, callStr end_of_game_sound.2)

/-- Result of handling one dequeued button number: the successor state,
the trace of side effects issued while handling it, and whether the
end-of-game branch was reached (after which the loop stops, via `break`
or via the `TypeError` escaping from `end()`). -/
structure StepResult where
  state : GameState
  trace : List Effect
  over : Bool
  deriving Repr, DecidableEq

/-- The body of the consumer loop in `Game._background_logic_checker`
for one dequeued `button_number`:

1. `print(f"Handling button {button_number}")`;
2. `pair_index = self._get_pair_index(button_number)`; if `-1`,
   `continue` (no further side effect, no state change);
3. set the button's LED to `self.colors[pair_index]` and play
   `self.sounds[pair_index]` (list indexing is written with `getD`;
   with a well-formed pairing `pair_index < 8`, so the default is
   never consulted);
4. append the button to `self.selections`;
5. if the buffer now has exactly 2 entries, resolve: the same slot
   twice is discarded silently (`continue`, skipping the end-of-game
   check); equal pair indices play the correct sound and increment
   `matched_pairs`; unequal pair indices play the incorrect sound,
   sleep 0.5 s and turn both LEDs off (`"black"`); then the buffer is
   cleared and, when `matched_pairs == total_pairs` (with
   `total_pairs = len(self.pairs)`), `self.end()` runs and the loop
   stops. -/
def processEvent (g : GameState) (button : Nat) : StepResult :=
  let logFx := Effect.log ("Handling button " ++ toString button)
  let pi := getPairIndex g.pairs button
  if pi = -1 then
    ⟨g, [logFx], false⟩
  else
    let idx := pi.toNat
    let pressFx := [logFx, Effect.setLED button (colors.getD idx ""),
                    Effect.playSound (sounds.getD idx "")]
    let sels := g.selections ++ [button]
    if sels.length = 2 then
      let first := sels.getD 0 0
      let second := sels.getD 1 0
      if first = second then
        ⟨{ g with selections := [] }, pressFx, false⟩
      else
        let firstIdx := getPairIndex g.pairs first
        let secondIdx := getPairIndex g.pairs second
        if firstIdx = secondIdx then
          let matched := g.matchedPairs + 1
          let fx := pressFx ++ [Effect.log "Correct Match!"] ++ correct_sound.1
          if matched = g.pairs.length then
            ⟨{ g with selections := [], matchedPairs := matched },
             fx ++ [Effect.log "Game Over - All pairs matched!"] ++ endGame.1, true⟩
          else
            ⟨{ g with selections := [], matchedPairs := matched }, fx, false⟩
        else
          let fx := pressFx ++ [Effect.log "Wrong Match!"] ++ incorrect_sound.1 ++
                    [Effect.sleep 500, Effect.setLED first "black",
                     Effect.setLED second "black"]
          if g.matchedPairs = g.pairs.length then
            ⟨{ g with selections := [] },
             fx ++ [Effect.log "Game Over - All pairs matched!"] ++ endGame.1, true⟩
          else
            ⟨{ g with selections := [] }, fx, false⟩
    else
      ⟨{ g with selections := sels }, pressFx, false⟩

/-- `Game._background_logic_checker` over a FIFO list of dequeued button
numbers: events are handled in order by `processEvent`; once the
end-of-game branch is reached the loop stops and later events are never
dequeued. -/
def runEvents (g : GameState) : List Nat → StepResult
  | [] => ⟨g, [], false⟩
  | e :: es =>
    let r := processEvent g e
    if r.over then ⟨r.state, r.trace, true⟩
    else
      let r2 := runEvents r.state es
      ⟨r2.state, r.trace ++ r2.trace, r2.over⟩

/-- `Game._start_game()`: spawns the background consumer thread running
`_background_logic_checker`, then plays the `"arrow2"` start cue.  It
touches no game state (in particular it does not generate the pairing;
`create_pairs` is a separate method, called by `_main` before `play`). -/
def start_game (g : GameState) : GameState × List Effect :=
  (g, [Effect.spawnConsumer, Effect.playSound "arrow2"])

/-- Inner loop of `Game.create_pairs`: `for _ in range(8)` (the fuel
`n`), draw `v1 = random.choice(numbers1)` and
`v2 = random.choice(numbers2)`, append `[v1, v2]` to `self.pairs` and
remove both values from their pools.  The randomness of `random.choice`
is modelled by a list of position choices, one `(Nat × Nat)` per round;
a round fails (`none`) only if a choice is out of range or the choice
list is exhausted, which `random.choice` on a non-empty list never does. -/
def createPairsGo : Nat → List (Nat × Nat) → List Nat → List Nat →
    List (List Nat) → Option (List (List Nat))
  | 0, _, _, _, acc => some acc
  | _ + 1, [], _, _, _ => none
  | n + 1, c :: cs, ns1, ns2, acc =>
    match ns1.get? c.1, ns2.get? c.2 with
    | some v1, some v2 =>
      createPairsGo n cs (ns1.erase v1) (ns2.erase v2) (acc ++ [[v1, v2]])
    | _, _ => none

/-- `Game.create_pairs()`: partitions `[1..8]` and `[9..16]` into 8
pairs by 8 random draws without replacement; the resulting `self.pairs`
list is in draw order, so a pair's list position is its pair index. -/
def create_pairs (choices : List (Nat × Nat)) : Option (List (List Nat)) :=
  createPairsGo 8 choices [1, 2, 3, 4, 5, 6, 7, 8] [9, 10, 11, 12, 13, 14, 15, 16] []

/-! ### Concrete states used by witnesses and counterexamples -/

/-- The straight pairing `[[1,9],[2,10],…,[8,16]]` (one possible output
of `create_pairs`, e.g. when every draw picks position 0). -/
def stdPairs : List (List Nat) :=
  [[1, 9], [2, 10], [3, 11], [4, 12], [5, 13], [6, 14], [7, 15], [8, 16]]

/-- A fresh game over the straight pairing: empty selection buffer,
zero matched pairs. -/
def stdStart : GameState := ⟨stdPairs, [], 0⟩

/-- A game state before `create_pairs` has ever run: `self.pairs` is
still the empty list from `Game.__init__`. -/
def pairlessState : GameState := ⟨[], [], 0⟩

/-- A press sequence that matches the 8 pairs of `stdPairs` in order. -/
def fullSolve : List Nat :=
  [1, 9, 2, 10, 3, 11, 4, 12, 5, 13, 6, 14, 7, 15, 8, 16]

/-! ### Helper lemmas -/

/-- The per-press pair sound (an entry of `sounds`, or the unreachable
`getD` default) is never one of the three resolution clips. -/
theorem sounds_getD_ne (i : Nat) :
    sounds.getD i "" ≠ "correct_answer" ∧ sounds.getD i "" ≠ "incorrect" ∧
    sounds.getD i "" ≠ "end_of_game" := by
  match i with
  | 0 | 1 | 2 | 3 | 4 | 5 | 6 | 7 => exact ⟨by decide, by decide, by decide⟩
  | n + 8 =>
    have h : sounds.getD (n + 8) "" = "" := rfl
    rw [h]
    exact ⟨by decide, by decide, by decide⟩

/-! ### Claim C9 -/

/-- Claim C9: every invocation of `Game.end()` performs the 16-slot
lighting sweep in index order with the sequence-defined colours, plays
the end-of-game sound exactly once, and then raises a `TypeError` (and
so never returns normally), because `end_of_game_sound` is a property
whose getter returns the string `"end_of_game"`, which `end()` then
attempts to call as a function. -/
theorem end_sweeps_sounds_once_then_raises :
    endGame.1 =
      [Effect.setLED 1 "red", Effect.sleep 100, Effect.setLED 2 "orange",
       Effect.sleep 100, Effect.setLED 3 "yellow", Effect.sleep 100,
       Effect.setLED 4 "green", Effect.sleep 100, Effect.setLED 5 "blue",
       Effect.sleep 100, Effect.setLED 6 "purple", Effect.sleep 100,
       Effect.setLED 7 "red", Effect.sleep 100, Effect.setLED 8 "orange",
       Effect.sleep 100, Effect.setLED 9 "yellow", Effect.sleep 100,
       Effect.setLED 10 "green", Effect.sleep 100, Effect.setLED 11 "blue",
       Effect.sleep 100, Effect.setLED 12 "purple", Effect.sleep 100,
       Effect.setLED 13 "red", Effect.sleep 100, Effect.setLED 14 "orange",
       Effect.sleep 100, Effect.setLED 15 "yellow", Effect.sleep 100,
       Effect.setLED 16 "green", Effect.sleep 100,
       Effect.playSound "end_of_game"] ∧
    endGame.1.count (Effect.playSound "end_of_game") = 1 ∧
    endGame.2 = Except.error (PyError.typeError "str object is not callable") :=
  ⟨by decide, by decide, rfl⟩

/-! ### Claim C8 -/

/-- Claim C8: a press event whose slot is absent from the current
pairing is ignored apart from the console log: no LED or audio side
effect is issued, the selection buffer and match count (indeed the whole
state) are unchanged, and the loop is not terminated, so processing
continues with the next event. -/
theorem unknown_slot_ignored (g : GameState) (e : Nat)
    (h : getPairIndex g.pairs e = -1) :
    processEvent g e =
      ⟨g, [Effect.log ("Handling button " ++ toString e)], false⟩ := by
  simp [processEvent, h]

/-- Witness for C8: slot 20 is in no pair of the straight pairing, and
pressing it from the fresh state changes nothing and logs only. -/
theorem unknown_slot_ignored_witness :
    getPairIndex stdStart.pairs 20 = -1 ∧
    processEvent stdStart 20 =
      ⟨stdStart, [Effect.log ("Handling button " ++ toString 20)], false⟩ :=
  ⟨by decide, unknown_slot_ignored stdStart 20 (by decide)⟩

/-! ### Claim C3 -/

/-- Counterexample to C3 as stated: calling `_start_game` on the state a
fresh `Game` is in before any `create_pairs` call leaves `self.pairs`
empty — in particular no fresh 8-pair random partition exists
afterwards — and its only side effects are spawning the consumer thread
and playing the `"arrow2"` cue.  So `start()` does not generate or
regenerate the pairing. -/
theorem start_game_does_not_generate_pairing :
    (start_game pairlessState).1.pairs = [] ∧
    (start_game pairlessState).1.pairs.length ≠ 8 ∧
    (start_game pairlessState).2 =
      [Effect.spawnConsumer, Effect.playSound "arrow2"] :=
  ⟨rfl, by decide, rfl⟩

/-- Claim C3 as amended: `_start_game()` spawns the matching-engine
consumer on a background worker thread and issues the start-of-game
audio cue, but leaves the game state — in particular the pairing —
untouched; the pairing is generated by a separate `create_pairs()`
call, issued by the entry point `_main` before `play()`. -/
theorem start_game_only_spawns_and_cues (g : GameState) :
    (start_game g).1 = g ∧ (start_game g).1.pairs = g.pairs ∧
    (start_game g).2 = [Effect.spawnConsumer, Effect.playSound "arrow2"] :=
  ⟨rfl, rfl, rfl⟩

/-! ### Claim C6 -/

/-- Claim C6: for every dequeued slot that belongs to some pair, the
engine always — before any buffering or resolution effect, and
regardless of the buffer's contents or whether the pair was already
matched — sets that slot's LED to the pair's colour and plays the
pair's sound (the palettes indexed at the pair index). -/
theorem valid_press_always_lights_and_sounds (g : GameState) (e : Nat)
    (h : getPairIndex g.pairs e ≠ -1) :
    ∃ rest, (processEvent g e).trace =
      Effect.log ("Handling button " ++ toString e) ::
      Effect.setLED e (colors.getD (getPairIndex g.pairs e).toNat "") ::
      Effect.playSound (sounds.getD (getPairIndex g.pairs e).toNat "") :: rest := by
  unfold processEvent
  rw [if_neg h]
  dsimp only
  split
  · split
    · exact ⟨_, rfl⟩
    · split
      · split
        · exact ⟨_, rfl⟩
        · exact ⟨_, rfl⟩
      · split
        · exact ⟨_, rfl⟩
        · exact ⟨_, rfl⟩
  · exact ⟨_, rfl⟩

/-- Witness for C6: pressing slot 5 (pair index 4) from the fresh state
lights it `"blue"` and plays `"arrow2"`. -/
theorem valid_press_always_lights_and_sounds_witness :
    getPairIndex stdStart.pairs 5 ≠ -1 ∧
    ∃ rest, (processEvent stdStart 5).trace =
      Effect.log ("Handling button " ++ toString 5) ::
      Effect.setLED 5 (colors.getD (getPairIndex stdStart.pairs 5).toNat "") ::
      Effect.playSound (sounds.getD (getPairIndex stdStart.pairs 5).toNat "") :: rest :=
  ⟨by decide, valid_press_always_lights_and_sounds stdStart 5 (by decide)⟩

/-! ### Claim C4 -/

/-- Claim C4: pressing the same slot twice in direct succession (no
other press between the two, starting from an empty selection buffer)
never increments the match count and plays no match or mismatch
resolution sound; the selection buffer ends up cleared, so a button
never matches itself. -/
theorem same_slot_twice_discarded_silently (g : GameState) (e : Nat)
    (h : g.selections = []) :
    (runEvents g [e, e]).state.matchedPairs = g.matchedPairs ∧
    (runEvents g [e, e]).state.selections = [] ∧
    Effect.playSound "correct_answer" ∉ (runEvents g [e, e]).trace ∧
    Effect.playSound "incorrect" ∉ (runEvents g [e, e]).trace := by
  obtain ⟨ps, sel, m⟩ := g
  simp only at h
  subst h
  by_cases hpi : getPairIndex ps e = -1
  · simp [runEvents, processEvent, hpi]
  · obtain ⟨hs1, hs2, hs3⟩ := sounds_getD_ne (getPairIndex ps e).toNat
    simp only [List.getD, List.get?_eq_getElem?] at hs1 hs2
    simp [runEvents, processEvent, hpi]
    exact ⟨fun h => hs1 h.symm, fun h => hs2 h.symm⟩

/-- Witness for C4: pressing slot 3 twice from the fresh state leaves
the match count at 0, clears the buffer, and plays no resolution sound. -/
theorem same_slot_twice_discarded_silently_witness :
    stdStart.selections = [] ∧
    ((runEvents stdStart [3, 3]).state.matchedPairs = stdStart.matchedPairs ∧
     (runEvents stdStart [3, 3]).state.selections = [] ∧
     Effect.playSound "correct_answer" ∉ (runEvents stdStart [3, 3]).trace ∧
     Effect.playSound "incorrect" ∉ (runEvents stdStart [3, 3]).trace) :=
  ⟨rfl, same_slot_twice_discarded_silently stdStart 3 rfl⟩

/-! ### Claim C10 -/

/-- Claim C10: if the selection buffer holds at most one entry at the
start of an iteration of the consumer loop, it again holds at most one
entry when the next event is dequeued; and whenever the buffer reaches
two entries while an event is processed (one buffered entry plus a
press belonging to some pair), it is cleared to empty before the next
event is dequeued. -/
theorem selection_buffer_bounded (g : GameState) (e : Nat)
    (h : g.selections.length ≤ 1) :
    (processEvent g e).state.selections.length ≤ 1 ∧
    (g.selections.length = 1 → getPairIndex g.pairs e ≠ -1 →
      (processEvent g e).state.selections = []) := by
  by_cases hpi : getPairIndex g.pairs e = -1
  · simp [processEvent, hpi, h]
  · obtain ⟨ps, sel, m⟩ := g
    simp only at h hpi ⊢
    match sel, h with
    | [], _ => simp [processEvent, hpi]
    | [x], _ =>
      simp [processEvent, hpi]
      split_ifs <;> simp_all
    | x :: y :: rest, h => simp at h

/-- Witness for C10: from a buffer holding `[1]`, pressing slot 10
leaves the buffer cleared (and hence of length at most one). -/
theorem selection_buffer_bounded_witness :
    (⟨stdPairs, [1], 0⟩ : GameState).selections.length ≤ 1 ∧
    ((processEvent ⟨stdPairs, [1], 0⟩ 10).state.selections.length ≤ 1 ∧
     ((⟨stdPairs, [1], 0⟩ : GameState).selections.length = 1 →
      getPairIndex (⟨stdPairs, [1], 0⟩ : GameState).pairs 10 ≠ -1 →
      (processEvent ⟨stdPairs, [1], 0⟩ 10).state.selections = [])) :=
  ⟨by decide, selection_buffer_bounded ⟨stdPairs, [1], 0⟩ 10 (by decide)⟩

/-! ### Claim C5 -/

/-- Claim C5: when the buffered slot and the newly pressed slot belong
to two different pairs (and are not the same slot), resolution plays the
designated incorrect sound, then after the fixed 0.5 s sleep sets both
involved LEDs to the off colour (`"black"`); the match count is
unchanged and the buffer is cleared. -/
theorem mismatch_plays_incorrect_then_extinguishes (g : GameState) (a e : Nat)
    (hsel : g.selections = [a])
    (ha : getPairIndex g.pairs a ≠ -1) (he : getPairIndex g.pairs e ≠ -1)
    (hne : getPairIndex g.pairs a ≠ getPairIndex g.pairs e) (hae : a ≠ e) :
    (∃ pre post, (processEvent g e).trace =
      pre ++ [Effect.playSound "incorrect", Effect.sleep 500,
              Effect.setLED a "black", Effect.setLED e "black"] ++ post) ∧
    (processEvent g e).state.matchedPairs = g.matchedPairs ∧
    (processEvent g e).state.selections = [] := by
  obtain ⟨ps, sel, m⟩ := g
  simp only at hsel ha he hne
  subst hsel
  by_cases hm : m = ps.length
  · exact ⟨⟨[Effect.log ("Handling button " ++ toString e),
             Effect.setLED e (colors.getD (getPairIndex ps e).toNat ""),
             Effect.playSound (sounds.getD (getPairIndex ps e).toNat ""),
             Effect.log "Wrong Match!"],
            [Effect.log "Game Over - All pairs matched!"] ++ endGame.1,
            by simp [processEvent, he, hae, hne, hm, incorrect_sound]⟩,
          by simp [processEvent, he, hae, hne, hm],
          by simp [processEvent, he, hae, hne, hm]⟩
  · exact ⟨⟨[Effect.log ("Handling button " ++ toString e),
             Effect.setLED e (colors.getD (getPairIndex ps e).toNat ""),
             Effect.playSound (sounds.getD (getPairIndex ps e).toNat ""),
             Effect.log "Wrong Match!"],
            [],
            by simp [processEvent, he, hae, hne, hm, incorrect_sound]⟩,
          by simp [processEvent, he, hae, hne, hm],
          by simp [processEvent, he, hae, hne, hm]⟩

/-- Witness for C5: with slot 1 buffered (pair index 0), pressing
slot 10 (pair index 1) yields the incorrect sound, the 0.5 s pause, and
both LEDs turned off, with the match count unchanged. -/
theorem mismatch_plays_incorrect_then_extinguishes_witness :
    (⟨stdPairs, [1], 0⟩ : GameState).selections = [1] ∧
    getPairIndex stdPairs 1 ≠ -1 ∧ getPairIndex stdPairs 10 ≠ -1 ∧
    getPairIndex stdPairs 1 ≠ getPairIndex stdPairs 10 ∧ (1 : Nat) ≠ 10 ∧
    ((∃ pre post, (processEvent ⟨stdPairs, [1], 0⟩ 10).trace =
        pre ++ [Effect.playSound "incorrect", Effect.sleep 500,
                Effect.setLED 1 "black", Effect.setLED 10 "black"] ++ post) ∧
     (processEvent ⟨stdPairs, [1], 0⟩ 10).state.matchedPairs =
       (⟨stdPairs, [1], 0⟩ : GameState).matchedPairs ∧
     (processEvent ⟨stdPairs, [1], 0⟩ 10).state.selections = []) :=
  ⟨rfl, by decide, by decide, by decide, by decide,
   mismatch_plays_incorrect_then_extinguishes ⟨stdPairs, [1], 0⟩ 1 10 rfl
     (by decide) (by decide) (by decide) (by decide)⟩

/-! ### Claim C2 -/

/-- Counterexample to C2 as stated: in the run `[1, 9, 1, 9]` over the
straight pairing every processed press belongs to pair 0 (so at most
one distinct pair can have been resolved), yet the match count ends at
2: a pair that is matched again contributes again, so the match count
does not equal the number of distinct pairs fully resolved as a match. -/
theorem match_count_recounts_rematched_pair :
    getPairIndex stdPairs 1 = 0 ∧ getPairIndex stdPairs 9 = 0 ∧
    (runEvents stdStart [1, 9, 1, 9]).state.matchedPairs = 2 := by
  exact ⟨by decide, by decide, by decide⟩

set_option linter.unnecessarySeqFocus false in
/-- Claim C2 as amended: the match count counts match resolutions — each
resolution of two distinct slots with equal pair index adds exactly 1,
and an already-matched pair adds again when re-matched, so the count
need not equal the number of distinct pairs resolved.  It is
monotonically non-decreasing (each processed event increases it by 0 or
1), and the loop's game-ending branch fires exactly when a non-self
resolution completes with the count equal to the total number of pairs
(`len(self.pairs)`, 8 for a generated pairing). -/
theorem match_count_counts_resolutions (g : GameState) (e : Nat) :
    g.matchedPairs ≤ (processEvent g e).state.matchedPairs ∧
    (processEvent g e).state.matchedPairs ≤ g.matchedPairs + 1 ∧
    ((processEvent g e).over = true ↔
      (getPairIndex g.pairs e ≠ -1 ∧ g.selections.length = 1 ∧
       g.selections.getD 0 0 ≠ e ∧
       (processEvent g e).state.matchedPairs = g.pairs.length)) := by
  by_cases hpi : getPairIndex g.pairs e = -1
  · simp [processEvent, hpi]
  · obtain ⟨ps, sel, m⟩ := g
    simp only at hpi
    rcases sel with _ | ⟨x, tail⟩
    · simp [processEvent, hpi]
    · rcases tail with _ | ⟨y, rest⟩
      · simp [processEvent, hpi]
        split_ifs <;> simp_all <;> omega
      · have hlen : ¬((x :: y :: rest ++ [e]).length = 2) := by
          simp
        simp [processEvent, hpi, hlen]

/-! ### Claim C1 -/

/-- The trace of `Game.end()` plays the end-of-game clip exactly once. -/
theorem endGame_trace_count :
    endGame.1.count (Effect.playSound "end_of_game") = 1 := by decide

/-- When handling one event reaches the end-of-game branch, its trace is
some prefix (free of the end-of-game clip) followed by the whole trace
of `Game.end()`. -/
theorem step_over_trace (g : GameState) (e : Nat)
    (h : (processEvent g e).over = true) :
    ∃ pre, (processEvent g e).trace = pre ++ endGame.1 ∧
      Effect.playSound "end_of_game" ∉ pre := by
  obtain ⟨ps, sel, m⟩ := g
  by_cases hpi : getPairIndex ps e = -1
  · simp [processEvent, hpi] at h
  · obtain ⟨hs1, hs2, hs3⟩ := sounds_getD_ne (getPairIndex ps e).toNat
    simp only [List.getD, List.get?_eq_getElem?] at hs3
    rcases sel with _ | ⟨x, _ | ⟨y, rest⟩⟩
    · simp [processEvent, hpi] at h
    · by_cases hxe : x = e
      · simp [processEvent, hpi, hxe] at h
      · by_cases hidx : getPairIndex ps x = getPairIndex ps e
        · by_cases hm : m + 1 = ps.length
          · refine ⟨[Effect.log ("Handling button " ++ toString e),
                     Effect.setLED e (colors.getD (getPairIndex ps e).toNat ""),
                     Effect.playSound (sounds.getD (getPairIndex ps e).toNat ""),
                     Effect.log "Correct Match!", Effect.playSound "correct_answer",
                     Effect.log "Game Over - All pairs matched!"], ?_, ?_⟩
            · simp [processEvent, hpi, hxe, hidx, hm, correct_sound]
            · simp
              exact fun hh => hs3 hh.symm
          · simp [processEvent, hpi, hxe, hidx, hm] at h
        · by_cases hm2 : m = ps.length
          · refine ⟨[Effect.log ("Handling button " ++ toString e),
                     Effect.setLED e (colors.getD (getPairIndex ps e).toNat ""),
                     Effect.playSound (sounds.getD (getPairIndex ps e).toNat ""),
                     Effect.log "Wrong Match!", Effect.playSound "incorrect",
                     Effect.sleep 500, Effect.setLED x "black",
                     Effect.setLED e "black",
                     Effect.log "Game Over - All pairs matched!"], ?_, ?_⟩
            · simp [processEvent, hpi, hxe, hidx, hm2, incorrect_sound]
            · simp
              exact fun hh => hs3 hh.symm
          · simp [processEvent, hpi, hxe, hidx, hm2] at h
    · have hlen : ¬((x :: y :: rest ++ [e]).length = 2) := by simp
      simp [processEvent, hpi, hlen] at h

/-- When handling one event does not reach the end-of-game branch, its
trace never plays the end-of-game clip. -/
theorem step_not_over_trace (g : GameState) (e : Nat)
    (h : (processEvent g e).over = false) :
    Effect.playSound "end_of_game" ∉ (processEvent g e).trace := by
  obtain ⟨ps, sel, m⟩ := g
  by_cases hpi : getPairIndex ps e = -1
  · simp [processEvent, hpi]
  · obtain ⟨hs1, hs2, hs3⟩ := sounds_getD_ne (getPairIndex ps e).toNat
    simp only [List.getD, List.get?_eq_getElem?] at hs3
    rcases sel with _ | ⟨x, _ | ⟨y, rest⟩⟩
    · simp [processEvent, hpi]
      exact fun hh => hs3 hh.symm
    · by_cases hxe : x = e
      · simp [processEvent, hpi, hxe]
        exact fun hh => hs3 hh.symm
      · by_cases hidx : getPairIndex ps x = getPairIndex ps e
        · by_cases hm : m + 1 = ps.length
          · simp [processEvent, hpi, hxe, hidx, hm] at h
          · simp [processEvent, hpi, hxe, hidx, hm, correct_sound]
            exact fun hh => hs3 hh.symm
        · by_cases hm2 : m = ps.length
          · simp [processEvent, hpi, hxe, hidx, hm2] at h
          · simp [processEvent, hpi, hxe, hidx, hm2, incorrect_sound]
            exact fun hh => hs3 hh.symm
    · have hlen : ¬((x :: y :: rest ++ [e]).length = 2) := by simp
      simp [processEvent, hpi, hlen]
      exact fun hh => hs3 hh.symm

/-- Once a run has reached the end-of-game branch, appending further
queued events changes nothing: they are never dequeued. -/
theorem runEvents_append_of_over (g : GameState) (evs1 evs2 : List Nat)
    (h : (runEvents g evs1).over = true) :
    runEvents g (evs1 ++ evs2) = runEvents g evs1 := by
  induction evs1 generalizing g with
  | nil => simp [runEvents] at h
  | cons e es ih =>
    simp only [List.cons_append, runEvents]
    by_cases hover : (processEvent g e).over
    · simp [hover]
    · simp only [runEvents, hover, Bool.false_eq_true, ite_false] at h
      simp [hover, ih _ h]

/-- A run that reaches the end-of-game branch has a trace ending in the
full `Game.end()` trace, with the end-of-game clip played exactly once
over the whole run. -/
theorem runEvents_over_trace (g : GameState) (evs : List Nat)
    (h : (runEvents g evs).over = true) :
    ∃ pre, (runEvents g evs).trace = pre ++ endGame.1 ∧
      (runEvents g evs).trace.count (Effect.playSound "end_of_game") = 1 := by
  induction evs generalizing g with
  | nil => simp [runEvents] at h
  | cons e es ih =>
    by_cases hover : (processEvent g e).over
    · obtain ⟨pre, hpre, hnotin⟩ := step_over_trace g e hover
      refine ⟨pre, ?_, ?_⟩
      · simp [runEvents, hover, hpre]
      · simp [runEvents, hover, hpre, List.count_append,
              List.count_eq_zero_of_not_mem hnotin]
        exact endGame_trace_count
    · have h' : (runEvents (processEvent g e).state es).over = true := by
        simp only [runEvents, hover, Bool.false_eq_true, ite_false] at h
        exact h
      obtain ⟨pre, hpre, hcount⟩ := ih _ h'
      have hstep := step_not_over_trace g e (by simpa using hover)
      refine ⟨(processEvent g e).trace ++ pre, ?_, ?_⟩
      · simp [runEvents, hover, hpre, List.append_assoc]
      · simp [runEvents, hover, List.count_append,
              List.count_eq_zero_of_not_mem hstep, hcount]

/-- Claim C1: whenever a run of the matching engine reaches the
game-ending condition, the trace ends with the end-of-game sequence —
the sweep of all 16 slots in index order with the sequence-defined
colours (`endSweepTrace`, independent of the pairing), followed by the
end-of-game sound — that sound is played exactly once in the whole run,
and no press queued after that point is ever processed (the run over the
extended queue equals the run that stopped at the completing press). -/
theorem game_completion_runs_end_sequence (g : GameState)
    (evs extra : List Nat) (h : (runEvents g evs).over = true) :
    (∃ pre, (runEvents g evs).trace =
      pre ++ endSweepTrace ++ [Effect.playSound "end_of_game"]) ∧
    (runEvents g evs).trace.count (Effect.playSound "end_of_game") = 1 ∧
    runEvents g (evs ++ extra) = runEvents g evs := by
  obtain ⟨pre, hpre, hcount⟩ := runEvents_over_trace g evs h
  refine ⟨⟨pre, ?_⟩, hcount, runEvents_append_of_over g evs extra h⟩
  rw [hpre]
  simp [endGame, end_of_game_sound, List.append_assoc]

/-- Witness for C1: solving the straight pairing pair by pair ends the
game; the trace ends with the sweep plus one end-of-game sound, and a
press queued afterwards is not processed. -/
theorem game_completion_runs_end_sequence_witness :
    (runEvents stdStart fullSolve).over = true ∧
    ((∃ pre, (runEvents stdStart fullSolve).trace =
        pre ++ endSweepTrace ++ [Effect.playSound "end_of_game"]) ∧
     (runEvents stdStart fullSolve).trace.count
        (Effect.playSound "end_of_game") = 1 ∧
     runEvents stdStart (fullSolve ++ [5]) = runEvents stdStart fullSolve) :=
  ⟨by decide, game_completion_runs_end_sequence stdStart fullSolve [5] (by decide)⟩

/-! ### Claim C7 -/

/-- Each successful round of `create_pairs` consumes one choice, so a
successful run of `n` rounds appends exactly `n` pairs. -/
theorem createPairsGo_length : ∀ (n : Nat) (cs : List (Nat × Nat))
    (ns1 ns2 : List Nat) (acc ps : List (List Nat)),
    createPairsGo n cs ns1 ns2 acc = some ps → ps.length = acc.length + n := by
  intro n
  induction n with
  | zero =>
    intro cs ns1 ns2 acc ps h
    simp [createPairsGo] at h
    simp [← h]
  | succ n ih =>
    intro cs ns1 ns2 acc ps h
    match cs with
    | [] => simp [createPairsGo] at h
    | c :: cs =>
      cases hv1 : ns1[c.1]? with
      | none => simp [createPairsGo, hv1] at h
      | some v1 =>
        cases hv2 : ns2[c.2]? with
        | none => simp [createPairsGo, hv1, hv2] at h
        | some v2 =>
          have h' : createPairsGo n cs (ns1.erase v1) (ns2.erase v2)
              (acc ++ [[v1, v2]]) = some ps := by
            simpa [createPairsGo, hv1, hv2] using h
          have := ih cs _ _ _ ps h'
          simp at this
          omega

/-- The draws of `create_pairs` are without replacement: a successful
run over pools of matching size moves exactly the pool elements into
the produced pairs, so the flattened result is a permutation of the
accumulated slots plus both pools. -/
theorem createPairsGo_perm : ∀ (n : Nat) (cs : List (Nat × Nat))
    (ns1 ns2 : List Nat) (acc ps : List (List Nat)),
    ns1.length = n → ns2.length = n →
    createPairsGo n cs ns1 ns2 acc = some ps →
    ps.flatten.Perm (acc.flatten ++ (ns1 ++ ns2)) := by
  intro n
  induction n with
  | zero =>
    intro cs ns1 ns2 acc ps h1 h2 h
    rw [List.length_eq_zero.mp h1, List.length_eq_zero.mp h2]
    simp [createPairsGo] at h
    simp [← h]
  | succ n ih =>
    intro cs ns1 ns2 acc ps h1 h2 h
    match cs with
    | [] => simp [createPairsGo] at h
    | c :: cs =>
      cases hv1 : ns1[c.1]? with
      | none => simp [createPairsGo, hv1] at h
      | some v1 =>
        cases hv2 : ns2[c.2]? with
        | none => simp [createPairsGo, hv1, hv2] at h
        | some v2 =>
          have hm1 : v1 ∈ ns1 := List.getElem?_mem hv1
          have hm2 : v2 ∈ ns2 := List.getElem?_mem hv2
          have hl1 : (ns1.erase v1).length = n := by
            rw [List.length_erase_of_mem hm1, h1]
            omega
          have hl2 : (ns2.erase v2).length = n := by
            rw [List.length_erase_of_mem hm2, h2]
            omega
          have h' : createPairsGo n cs (ns1.erase v1) (ns2.erase v2)
              (acc ++ [[v1, v2]]) = some ps := by
            simpa [createPairsGo, hv1, hv2] using h
          have hp := ih cs _ _ _ ps hl1 hl2 h'
          have e1 : ((acc ++ [[v1, v2]]).flatten : List Nat) =
              acc.flatten ++ [v1, v2] := by simp
          rw [e1, List.append_assoc] at hp
          refine hp.trans (List.Perm.append_left acc.flatten ?_)
          have step1 : ((v2 :: (ns1.erase v1 ++ ns2.erase v2)) : List Nat).Perm
              (ns1.erase v1 ++ (v2 :: ns2.erase v2)) := List.perm_middle.symm
          have step2 : (([v1, v2] ++ (ns1.erase v1 ++ ns2.erase v2)) : List Nat).Perm
              ((v1 :: ns1.erase v1) ++ (v2 :: ns2.erase v2)) := step1.cons v1
          exact step2.trans
            (List.Perm.append (List.perm_cons_erase hm1).symm
              (List.perm_cons_erase hm2).symm)

/-- Every pair appended by `create_pairs` is a two-element list drawing
its first slot from the first pool and its second from the second. -/
theorem createPairsGo_shape (L1 L2 : List Nat) : ∀ (n : Nat)
    (cs : List (Nat × Nat)) (ns1 ns2 : List Nat) (acc ps : List (List Nat)),
    createPairsGo n cs ns1 ns2 acc = some ps →
    (∀ p ∈ acc, ∃ a b, p = [a, b] ∧ a ∈ L1 ∧ b ∈ L2) →
    ns1 ⊆ L1 → ns2 ⊆ L2 →
    ∀ p ∈ ps, ∃ a b, p = [a, b] ∧ a ∈ L1 ∧ b ∈ L2 := by
  intro n
  induction n with
  | zero =>
    intro cs ns1 ns2 acc ps h hacc _ _
    simp [createPairsGo] at h
    rw [← h]
    exact hacc
  | succ n ih =>
    intro cs ns1 ns2 acc ps h hacc hsub1 hsub2
    match cs with
    | [] => simp [createPairsGo] at h
    | c :: cs =>
      cases hv1 : ns1[c.1]? with
      | none => simp [createPairsGo, hv1] at h
      | some v1 =>
        cases hv2 : ns2[c.2]? with
        | none => simp [createPairsGo, hv1, hv2] at h
        | some v2 =>
          have h' : createPairsGo n cs (ns1.erase v1) (ns2.erase v2)
              (acc ++ [[v1, v2]]) = some ps := by
            simpa [createPairsGo, hv1, hv2] using h
          refine ih cs _ _ _ ps h' ?_ ?_ ?_
          · intro p hp
            rcases List.mem_append.mp hp with hp | hp
            · exact hacc p hp
            · refine ⟨v1, v2, by simpa using hp, hsub1 (List.getElem?_mem hv1),
                hsub2 (List.getElem?_mem hv2)⟩
          · exact fun a ha => hsub1 (List.erase_subset _ _ ha)
          · exact fun a ha => hsub2 (List.erase_subset _ _ ha)

/-- Claim C7: every pairing produced by a successful `create_pairs` run
has exactly 8 pairs, its slots are exactly `{1..16}` with no repeats
and no omissions, and every pair is a two-element list whose first slot
comes from `{1..8}` and whose second comes from `{9..16}`; the pair at
list position `i` is the `i`-th drawn pair, so its position is its
0-based draw order (the pair index used for colours and sounds). -/
theorem create_pairs_partition_invariant (choices : List (Nat × Nat))
    (ps : List (List Nat)) (h : create_pairs choices = some ps) :
    ps.length = 8 ∧
    ps.flatten.Perm [1, 2, 3, 4, 5, 6, 7, 8, 9, 10, 11, 12, 13, 14, 15, 16] ∧
    ∀ p ∈ ps, ∃ a b, p = [a, b] ∧ a ∈ [1, 2, 3, 4, 5, 6, 7, 8] ∧
      b ∈ [9, 10, 11, 12, 13, 14, 15, 16] := by
  refine ⟨?_, ?_, ?_⟩
  · simpa using createPairsGo_length 8 choices _ _ _ ps h
  · simpa using createPairsGo_perm 8 choices
      [1, 2, 3, 4, 5, 6, 7, 8] [9, 10, 11, 12, 13, 14, 15, 16] [] ps rfl rfl h
  · exact createPairsGo_shape [1, 2, 3, 4, 5, 6, 7, 8]
      [9, 10, 11, 12, 13, 14, 15, 16] 8 choices _ _ _ ps h
      (by simp) (fun a ha => ha) (fun a ha => ha)

/-- The position choices in which every draw picks the first remaining
element of each pool. -/
def straightChoices : List (Nat × Nat) := List.replicate 8 (0, 0)

/-- Witness for C7: drawing position 0 each round succeeds and yields
the straight pairing, which satisfies the partition invariant. -/
theorem create_pairs_partition_invariant_witness :
    create_pairs straightChoices = some stdPairs ∧
    (stdPairs.length = 8 ∧
     stdPairs.flatten.Perm [1, 2, 3, 4, 5, 6, 7, 8, 9, 10, 11, 12, 13, 14, 15, 16] ∧
     ∀ p ∈ stdPairs, ∃ a b, p = [a, b] ∧ a ∈ [1, 2, 3, 4, 5, 6, 7, 8] ∧
       b ∈ [9, 10, 11, 12, 13, 14, 15, 16]) :=
  ⟨by decide, create_pairs_partition_invariant straightChoices stdPairs (by decide)⟩
